import Mathlib

/-!
Verification development for the bx-signal-backend server (src/server.js).

The JavaScript source is shallowly embedded: JSON values are modelled by
`JsValue`; the two persisted collections (`pending.json`, `approved.json`)
are modelled by `FileState`, where JSON serialization/deserialization of the
host (`JSON.stringify` / `JSON.parse`) is taken as the identity on parsed
JSON values and a write is given an explicit success/failure outcome;
host-supplied partial functions (`Date` parsing, base64+utf8 decoding via
`Buffer`) are passed in as function parameters; `Date.now()`, ISO timestamps
and `Math.random` suffixes are passed in as explicit arguments.  Machine
strings are modelled as Lean `String` (or `List Char` in the auth layer,
matching JS index-based slicing).
-/

/-- Model of a JavaScript/JSON value as handled by the server (numbers are
used only as opaque scalars by the modelled code, so `Int` suffices). -/
inductive JsValue where
  | null
  | bool (b : Bool)
  | num (n : Int)
  | str (s : String)
  | arr (elems : List JsValue)
  | obj (fields : List (String × JsValue))

/-- First-match lookup in a field list (JS objects have unique keys, for
which first-match and last-match agree). -/
def lookupField : List (String × JsValue) → String → Option JsValue
  | [], _ => none
  | (k, v) :: rest, key => if k = key then some v else lookupField rest key

/-- JS property access `o.key` (`undefined`, i.e. `none`, off objects). -/
def getField : JsValue → String → Option JsValue
  | .obj fields, key => lookupField fields key
  | _, _ => none

/-- JS truthiness of a value (`NaN` does not arise in the model). -/
def truthy : JsValue → Bool
  | .null => false
  | .bool b => b
  | .num n => n != 0
  | .str s => s != ""
  | .arr _ => true
  | .obj _ => true

/-- JS `typeof v === 'object'` (true for `null`, arrays and objects). -/
def isObjectType : JsValue → Bool
  | .null => true
  | .arr _ => true
  | .obj _ => true
  | _ => false

/-- Set a key in a field list: replace the first occurrence in place, else
append — the semantics of a JS spread-with-override `{...o, key: v}`. -/
def setField : List (String × JsValue) → String → JsValue → List (String × JsValue)
  | [], key, v => [(key, v)]
  | (k, w) :: rest, key, v =>
    if k = key then (k, v) :: rest else (k, w) :: setField rest key v

/-- Fields contributed by spreading a value (`{...v}`); primitives spread to
nothing.  The modelled code only ever spreads objects. -/
def spreadFields : JsValue → List (String × JsValue)
  | .obj fields => fields
  | _ => []

/-- JS `{...o, key: v}` restricted to a single overriding key. -/
def objSet (o : JsValue) (key : String) (v : JsValue) : JsValue :=
  .obj (setField (spreadFields o) key v)

/-- One persisted JSON file: missing, unparsable, or holding a parsed JSON
value (serialization is the identity on parsed values). -/
inductive FileState where
  | absent
  | unparsable
  | content (v : JsValue)

/-- src/server.js `readJsonArray`: degrade a missing file, a parse failure
and non-array content to the empty array; otherwise return the elements. -/
def readJsonArray : FileState → List JsValue
  | .absent => []
  | .unparsable => []
  | .content (.arr elems) => elems
  | .content _ => []

/-- src/server.js `writeJsonArray`: full-content replacement with an explicit
write outcome; a failed write leaves the prior file state and returns
`false`. -/
def writeJsonArray (fs : FileState) (value : List JsValue) (writeOk : Bool) :
    FileState × Bool :=
  if writeOk then (.content (.arr value), true) else (fs, false)

/-- Process state: the two collection files plus the in-memory
`submissionHits` map (client identity to recorded hit timestamps, ms). -/
structure ServerState where
  pendingFile : FileState
  approvedFile : FileState
  submissionHits : List (String × List Int)

/-- `submissionHits.get(ip) || []`. -/
def hitsGet : List (String × List Int) → String → List Int
  | [], _ => []
  | (k, v) :: rest, key => if k = key then v else hitsGet rest key

/-- `submissionHits.set(ip, recent)`. -/
def hitsSet : List (String × List Int) → String → List Int → List (String × List Int)
  | [], key, v => [(key, v)]
  | (k, w) :: rest, key, v =>
    if k = key then (k, v) :: rest else (k, w) :: hitsSet rest key v

def RATE_LIMIT_WINDOW_MS : Int := 10 * 60 * 1000

def RATE_LIMIT_MAX_SUBMISSIONS : Nat := 5

/-- `Math.max(1, Math.ceil(x / 1000))` for an integer `x`: for `x ≥ 0` the
ceiling is `(x + 999) / 1000`; for `x < 0` both that `Nat` expression and the
JS ceiling are clamped to `1` by the outer max. -/
def jsRetryCeil (x : Int) : Nat :=
  max 1 ((x.toNat + 999) / 1000)

inductive RateOutcome where
  | allowed
  | limited (retryAfterSec : Nat)
deriving DecidableEq

/-- src/server.js `enforceSubmissionRateLimit`, acting on the hits map for a
resolved client identity `ip` at time `now` (ms): prune to the trailing
window, reject with a retry hint when the pruned list is full (leaving the
map unchanged), otherwise record the hit. -/
def enforceSubmissionRateLimit (hits : List (String × List Int)) (ip : String)
    (now : Int) : RateOutcome × List (String × List Int) :=
  let recent := (hitsGet hits ip).filter (fun ts => now - ts ≤ RATE_LIMIT_WINDOW_MS)
  if RATE_LIMIT_MAX_SUBMISSIONS ≤ recent.length then
    (.limited (jsRetryCeil (RATE_LIMIT_WINDOW_MS - (now - recent.headD 0))), hits)
  else
    (.allowed, hitsSet hits ip (recent ++ [now]))

inductive ValidationResult where
  | ok
  | fail (message : String)
deriving DecidableEq

/-- JS `String.prototype.trim`: strip leading and trailing whitespace
(modelled over the character list). -/
def jsTrim (s : String) : String :=
  String.mk (((s.toList.dropWhile Char.isWhitespace).reverse.dropWhile
    Char.isWhitespace).reverse)

/-- src/server.js `validateIncomingSignal`; `isValidDate s` stands for the
host predicate `!Number.isNaN(new Date(s).getTime())`. -/
def validateIncomingSignal (isValidDate : String → Bool) (payload : JsValue) :
    ValidationResult :=
  if !truthy payload || !isObjectType payload then .fail "Invalid payload"
  else
    let title := match getField payload "title" with
      | some (.str s) => jsTrim s
      | _ => ""
    let startTime := match getField payload "startTime" with
      | some (.str s) => jsTrim s
      | _ => ""
    if title = "" then .fail "Missing title"
    else if startTime = "" || !isValidDate startTime then
      .fail "Missing or invalid startTime"
    else .ok

/-- Observable HTTP responses of the modelled handlers. -/
inductive Response where
  | okJson
  | createdSignal (id : String)
  | badRequest (message : String)
  | notFound (message : String)
  | tooManyRequests (retryAfterSec : Nat)
  | serverError (message : String)
deriving DecidableEq

/-- The id minted when the client supplies none:
`` `sig-${Date.now()}-${Math.random().toString(16).slice(2, 8)}` ``. -/
def mintId (nowMs : Int) (rand : String) : String :=
  "sig-" ++ toString nowMs ++ "-" ++ rand

/-- `incoming.id && typeof incoming.id === 'string' ? incoming.id : mint`:
a client-supplied id is kept only when it is a truthy (non-empty) string. -/
def assignId (incoming : JsValue) (nowMs : Int) (rand : String) : String :=
  match getField incoming "id" with
  | some (.str s) => if s = "" then mintId nowMs rand else s
  | _ => mintId nowMs rand

/-- `{ ...incoming, id, status: 'pending', submittedAt }`. -/
def buildNewSignal (incoming : JsValue) (assignedId : String) (nowIso : String) :
    JsValue :=
  objSet (objSet (objSet incoming "id" (.str assignedId)) "status" (.str "pending"))
    "submittedAt" (.str nowIso)

/-- src/server.js `POST /api/signals`: rate-limit gate (which records the hit
before the handler body runs), then validation, then read-append-rewrite of
the pending collection. -/
def postSignal (isValidDate : String → Bool) (st : ServerState) (ip : String)
    (nowMs : Int) (nowIso : String) (rand : String) (body : JsValue)
    (writeOk : Bool) : Response × ServerState :=
  match enforceSubmissionRateLimit st.submissionHits ip nowMs with
  | (.limited retry, hits') =>
    (.tooManyRequests retry, { st with submissionHits := hits' })
  | (.allowed, hits') =>
    let st1 : ServerState := { st with submissionHits := hits' }
    match validateIncomingSignal isValidDate body with
    | .fail msg => (.badRequest msg, st1)
    | .ok =>
      let pending := readJsonArray st1.pendingFile
      let newSignal := buildNewSignal body (assignId body nowMs rand) nowIso
      let written := writeJsonArray st1.pendingFile (pending ++ [newSignal]) writeOk
      let st2 : ServerState := { st1 with pendingFile := written.1 }
      if written.2 then (.createdSignal (assignId body nowMs rand), st2)
      else (.serverError "Could not save pending signal", st2)

/-- `const { id } = req.body || {}` followed by the
`!id || typeof id !== 'string'` guard: yields the id only when the body
carries a non-empty string `id`. -/
def extractId (body : JsValue) : Option String :=
  match getField body "id" with
  | some (.str s) => if s = "" then none else some s
  | _ => none

/-- The `findIndex` predicate `(sig) => sig && sig.id === id`. -/
def sigMatches (sig : JsValue) (id : String) : Bool :=
  truthy sig && (match getField sig "id" with
    | some (.str s) => s == id
    | _ => false)

/-- Fused `findIndex` + `splice(index, 1)`: remove the first record matching
the id, returning it together with the remaining list in order. -/
def removeById : List JsValue → String → Option (JsValue × List JsValue)
  | [], _ => none
  | sig :: rest, id =>
    if sigMatches sig id then some (sig, rest)
    else match removeById rest id with
      | none => none
      | some (found, rest') => some (found, sig :: rest')

/-- `{ ...signal, status: 'approved', approvedAt: new Date().toISOString() }`. -/
def approvedRecord (signal : JsValue) (nowIso : String) : JsValue :=
  objSet (objSet signal "status" (.str "approved")) "approvedAt" (.str nowIso)

/-- src/server.js `POST /admin/approve` (after the auth gate): id guard,
lookup in pending by id, move the record into approved with the approval
stamp, then write approved first and pending second, reporting 500 unless
both writes succeed. -/
def postApprove (st : ServerState) (body : JsValue) (nowIso : String)
    (writeApprovedOk writePendingOk : Bool) : Response × ServerState :=
  match extractId body with
  | none => (.badRequest "Missing id", st)
  | some id =>
    let pending := readJsonArray st.pendingFile
    let approved := readJsonArray st.approvedFile
    match removeById pending id with
    | none => (.notFound "Pending signal not found", st)
    | some (signal, pending') =>
      let approved' := approved ++ [approvedRecord signal nowIso]
      let wa := writeJsonArray st.approvedFile approved' writeApprovedOk
      let wp := writeJsonArray st.pendingFile pending' writePendingOk
      let st' : ServerState := { st with approvedFile := wa.1, pendingFile := wp.1 }
      if !wa.2 || !wp.2 then (.serverError "Failed to save approval update", st')
      else (.okJson, st')

/-- src/server.js `POST /admin/reject` (after the auth gate): id guard,
lookup in pending by id, discard the record and rewrite pending. -/
def postReject (st : ServerState) (body : JsValue) (writeOk : Bool) :
    Response × ServerState :=
  match extractId body with
  | none => (.badRequest "Missing id", st)
  | some id =>
    let pending := readJsonArray st.pendingFile
    match removeById pending id with
    | none => (.notFound "Pending signal not found", st)
    | some (_, pending') =>
      let wp := writeJsonArray st.pendingFile pending' writeOk
      let st' : ServerState := { st with pendingFile := wp.1 }
      if !wp.2 then (.serverError "Failed to save rejection update", st')
      else (.okJson, st')

/-- The id a record exposes to `findIndex`: a string-valued `id` field. -/
def recordId (r : JsValue) : Option String :=
  match getField r "id" with
  | some (.str s) => some s
  | _ => none

/-- Ids exposed by the records of a collection, in order. -/
def idsOf (records : List JsValue) : List String :=
  records.filterMap recordId

/-- Ids of the pending collection as currently persisted. -/
def pendingIds (st : ServerState) : List String :=
  idsOf (readJsonArray st.pendingFile)

/-- Ids of the approved collection as currently persisted. -/
def approvedIds (st : ServerState) : List String :=
  idsOf (readJsonArray st.approvedFile)

/-- Ids across both collections. -/
def allIds (st : ServerState) : List String :=
  pendingIds st ++ approvedIds st

theorem lookupField_setField_self (fs : List (String × JsValue)) (key : String)
    (v : JsValue) : lookupField (setField fs key v) key = some v := by
  induction fs with
  | nil => simp [setField, lookupField]
  | cons kv rest ih =>
    obtain ⟨k, w⟩ := kv
    by_cases h : k = key
    · simp [setField, h, lookupField]
    · simp [setField, h, lookupField, ih]

theorem lookupField_setField_ne (fs : List (String × JsValue)) (key other : String)
    (v : JsValue) (h : other ≠ key) :
    lookupField (setField fs key v) other = lookupField fs other := by
  induction fs with
  | nil =>
    simp only [setField, lookupField]
    rw [if_neg (Ne.symm h)]
  | cons kv rest ih =>
    obtain ⟨k, w⟩ := kv
    by_cases hk : k = key
    · subst hk
      simp only [setField, if_pos rfl, lookupField]
      rw [if_neg (Ne.symm h), if_neg (Ne.symm h)]
    · simp only [setField, if_neg hk, lookupField, ih]

theorem getField_objSet_self (o : JsValue) (key : String) (v : JsValue) :
    getField (objSet o key v) key = some v := by
  simp [objSet, getField, lookupField_setField_self]

theorem getField_objSet_ne (o : JsValue) (key other : String) (v : JsValue)
    (h : other ≠ key) : getField (objSet o key v) other = getField o other := by
  cases o <;>
    simp only [objSet, getField, spreadFields,
      lookupField_setField_ne _ _ _ _ h, setField, lookupField] <;>
    rw [if_neg (Ne.symm h)]

theorem recordId_buildNewSignal (incoming : JsValue) (aid iso : String) :
    recordId (buildNewSignal incoming aid iso) = some aid := by
  unfold buildNewSignal recordId
  rw [getField_objSet_ne _ _ _ _ (by decide : ("id" : String) ≠ "submittedAt"),
    getField_objSet_ne _ _ _ _ (by decide : ("id" : String) ≠ "status"),
    getField_objSet_self]

theorem getField_buildNewSignal_status (incoming : JsValue) (aid iso : String) :
    getField (buildNewSignal incoming aid iso) "status" = some (.str "pending") := by
  unfold buildNewSignal
  rw [getField_objSet_ne _ _ _ _ (by decide : ("status" : String) ≠ "submittedAt"),
    getField_objSet_self]

theorem getField_buildNewSignal_other (incoming : JsValue) (aid iso key : String)
    (h1 : key ≠ "id") (h2 : key ≠ "status") (h3 : key ≠ "submittedAt") :
    getField (buildNewSignal incoming aid iso) key = getField incoming key := by
  unfold buildNewSignal
  rw [getField_objSet_ne _ _ _ _ h3, getField_objSet_ne _ _ _ _ h2,
    getField_objSet_ne _ _ _ _ h1]

theorem recordId_approvedRecord (sig : JsValue) (iso : String) :
    recordId (approvedRecord sig iso) = recordId sig := by
  unfold approvedRecord recordId
  rw [getField_objSet_ne _ _ _ _ (by decide : ("id" : String) ≠ "approvedAt"),
    getField_objSet_ne _ _ _ _ (by decide : ("id" : String) ≠ "status")]

theorem getField_approvedRecord_status (sig : JsValue) (iso : String) :
    getField (approvedRecord sig iso) "status" = some (.str "approved") := by
  unfold approvedRecord
  rw [getField_objSet_ne _ _ _ _ (by decide : ("status" : String) ≠ "approvedAt"),
    getField_objSet_self]

theorem getField_approvedRecord_approvedAt (sig : JsValue) (iso : String) :
    getField (approvedRecord sig iso) "approvedAt" = some (.str iso) :=
  getField_objSet_self _ _ _

theorem sigMatches_eq_true_iff (sig : JsValue) (id : String) :
    sigMatches sig id = true ↔ recordId sig = some id := by
  cases sig with
  | obj fs =>
    simp only [sigMatches, truthy, Bool.true_and]
    cases h : getField (.obj fs) "id" with
    | none => simp [recordId, h]
    | some v => cases v <;> simp [recordId, h]
  | null => simp [sigMatches, truthy, recordId, getField]
  | bool b => simp [sigMatches, truthy, recordId, getField]
  | num n => simp [sigMatches, truthy, recordId, getField]
  | str s => simp [sigMatches, truthy, recordId, getField]
  | arr xs => simp [sigMatches, truthy, recordId, getField]

theorem idsOf_nil : idsOf [] = [] := rfl

theorem idsOf_append (l₁ l₂ : List JsValue) :
    idsOf (l₁ ++ l₂) = idsOf l₁ ++ idsOf l₂ :=
  List.filterMap_append l₁ l₂ recordId

theorem idsOf_cons_some {r : JsValue} {s : String} (h : recordId r = some s)
    (l : List JsValue) : idsOf (r :: l) = s :: idsOf l := by
  simp [idsOf, List.filterMap_cons, h]

theorem idsOf_cons_none {r : JsValue} (h : recordId r = none)
    (l : List JsValue) : idsOf (r :: l) = idsOf l := by
  simp [idsOf, List.filterMap_cons, h]

theorem removeById_spec {l rest : List JsValue} {id : String} {sig : JsValue}
    (h : removeById l id = some (sig, rest)) :
    recordId sig = some id ∧ l.Perm (sig :: rest) ∧
      idsOf rest = (idsOf l).erase id := by
  induction l generalizing sig rest with
  | nil => simp [removeById] at h
  | cons a tl ih =>
    by_cases hm : sigMatches a id
    · simp only [removeById, if_pos hm, Option.some.injEq, Prod.mk.injEq] at h
      obtain ⟨rfl, rfl⟩ := h
      have hr : recordId a = some id := (sigMatches_eq_true_iff _ _).1 hm
      refine ⟨hr, List.Perm.refl _, ?_⟩
      rw [idsOf_cons_some hr, List.erase_cons_head]
    · simp only [removeById, if_neg hm] at h
      cases hrec : removeById tl id with
      | none => rw [hrec] at h; exact absurd h (by simp)
      | some pr =>
        obtain ⟨found, rest'⟩ := pr
        rw [hrec] at h
        simp only [Option.some.injEq, Prod.mk.injEq] at h
        obtain ⟨rfl, rfl⟩ := h
        obtain ⟨h1, h2, h3⟩ := ih hrec
        have hne : recordId a ≠ some id := fun hc =>
          hm ((sigMatches_eq_true_iff _ _).2 hc)
        refine ⟨h1, (h2.cons a).trans (List.Perm.swap _ _ _), ?_⟩
        cases ha : recordId a with
        | none => rw [idsOf_cons_none ha, idsOf_cons_none ha, h3]
        | some id' =>
          have hne' : id' ≠ id := fun hc => hne (by rw [ha, hc])
          rw [idsOf_cons_some ha, idsOf_cons_some ha, h3, List.erase_cons]
          simp [hne']

theorem removeById_mem {l rest : List JsValue} {id : String} {sig : JsValue}
    (h : removeById l id = some (sig, rest)) : id ∈ idsOf l := by
  obtain ⟨h1, h2, _⟩ := removeById_spec h
  have : sig ∈ l := h2.mem_iff.2 (List.mem_cons_self _ _)
  exact List.mem_filterMap.2 ⟨sig, this, h1⟩

theorem removeById_eq_none {l : List JsValue} {id : String} :
    removeById l id = none ↔ id ∉ idsOf l := by
  induction l with
  | nil => simp [removeById, idsOf]
  | cons a tl ih =>
    by_cases hm : sigMatches a id
    · have hr : recordId a = some id := (sigMatches_eq_true_iff _ _).1 hm
      simp only [removeById, if_pos hm]
      rw [idsOf_cons_some hr]
      simp
    · have hne : recordId a ≠ some id := fun hc =>
        hm ((sigMatches_eq_true_iff _ _).2 hc)
      have hmem : id ∈ idsOf (a :: tl) ↔ id ∈ idsOf tl := by
        cases ha : recordId a with
        | none => rw [idsOf_cons_none ha]
        | some id' =>
          have hne' : id' ≠ id := fun hc => hne (by rw [ha, hc])
          rw [idsOf_cons_some ha]
          simp [List.mem_cons, Ne.symm hne']
      simp only [removeById, if_neg hm]
      cases hrec : removeById tl id with
      | none =>
        have htl := ih.1 hrec
        simp [hmem, htl]
      | some pr =>
        obtain ⟨found, rest'⟩ := pr
        have hidtl : id ∈ idsOf tl := removeById_mem hrec
        simp [hmem, hidtl]

/-- Fresh deployment: no collection files yet, empty rate-limit map. -/
def initialState : ServerState := ⟨.absent, .absent, []⟩

/-- One externally triggered mutating request, carrying the host-supplied
nondeterminism (clock, random id suffix, write outcomes) as data. -/
inductive Op where
  | submit (ip : String) (nowMs : Int) (nowIso : String) (rand : String)
      (body : JsValue) (writeOk : Bool)
  | approve (body : JsValue) (nowIso : String)
      (writeApprovedOk writePendingOk : Bool)
  | reject (body : JsValue) (writeOk : Bool)

def applyOp (isValidDate : String → Bool) (st : ServerState) :
    Op → Response × ServerState
  | .submit ip ms iso rand body w => postSignal isValidDate st ip ms iso rand body w
  | .approve body iso wA wP => postApprove st body iso wA wP
  | .reject body w => postReject st body w

def runOps (isValidDate : String → Bool) (st : ServerState) :
    List Op → ServerState
  | [] => st
  | op :: ops => runOps isValidDate (applyOp isValidDate st op).2 ops

theorem postSignal_cases (pd : String → Bool) (st : ServerState) (ip : String)
    (ms : Int) (iso rand : String) (body : JsValue) (w : Bool) :
    (postSignal pd st ip ms iso rand body w).2.approvedFile = st.approvedFile ∧
    (((∀ i, (postSignal pd st ip ms iso rand body w).1 ≠ .createdSignal i) ∧
      (postSignal pd st ip ms iso rand body w).2.pendingFile = st.pendingFile) ∨
     ((postSignal pd st ip ms iso rand body w).1 =
        .createdSignal (assignId body ms rand) ∧
      (postSignal pd st ip ms iso rand body w).2.pendingFile =
        .content (.arr (readJsonArray st.pendingFile ++
          [buildNewSignal body (assignId body ms rand) iso])))) := by
  unfold postSignal
  cases hrl : enforceSubmissionRateLimit st.submissionHits ip ms with
  | mk outcome hits' =>
    cases outcome with
    | limited r => simp
    | allowed =>
      cases hv : validateIncomingSignal pd body with
      | fail m => simp
      | ok =>
        cases w with
        | false => simp [writeJsonArray]
        | true => simp [writeJsonArray]

theorem postApprove_cases (st : ServerState) (body : JsValue) (iso : String)
    (wA wP : Bool) :
    ((postApprove st body iso wA wP).2 = st) ∨
    (∃ id sig rest, extractId body = some id ∧
      removeById (readJsonArray st.pendingFile) id = some (sig, rest) ∧
      (postApprove st body iso wA wP).2 =
        { st with
          pendingFile :=
            if wP then FileState.content (.arr rest) else st.pendingFile,
          approvedFile :=
            if wA then
              FileState.content (.arr (readJsonArray st.approvedFile ++
                [approvedRecord sig iso]))
            else st.approvedFile }) := by
  cases hid : extractId body with
  | none => left; simp [postApprove, hid]
  | some id =>
    cases hrem : removeById (readJsonArray st.pendingFile) id with
    | none => left; simp [postApprove, hid, hrem]
    | some pr =>
      obtain ⟨sig, rest⟩ := pr
      right
      refine ⟨id, sig, rest, rfl, hrem, ?_⟩
      cases wA <;> cases wP <;>
        simp [postApprove, hid, hrem, writeJsonArray]

theorem postReject_cases (st : ServerState) (body : JsValue) (w : Bool) :
    ((postReject st body w).1 ≠ .okJson ∧ (postReject st body w).2 = st) ∨
    (∃ id sig rest, (postReject st body w).1 = .okJson ∧
      extractId body = some id ∧
      removeById (readJsonArray st.pendingFile) id = some (sig, rest) ∧
      (postReject st body w).2 =
        { st with pendingFile := FileState.content (.arr rest) }) := by
  cases hid : extractId body with
  | none => left; simp [postReject, hid]
  | some id =>
    cases hrem : removeById (readJsonArray st.pendingFile) id with
    | none => left; simp [postReject, hid, hrem]
    | some pr =>
      obtain ⟨sig, rest⟩ := pr
      cases w with
      | false => left; simp [postReject, hid, hrem, writeJsonArray]
      | true =>
        right
        exact ⟨id, sig, rest, by simp [postReject, hid, hrem, writeJsonArray],
          rfl, hrem, by simp [postReject, hid, hrem, writeJsonArray]⟩

/-- Ghost bookkeeping: ids of records created and durably admitted and not
since successfully discarded.  A successful submit adds the assigned id; a
successful reject removes the targeted id; everything else (including every
failure response) leaves the set unchanged. -/
def liveAfter (pd : String → Bool) (st : ServerState) (live : List String) :
    Op → List String
  | .submit ip ms iso rand body w =>
    match (postSignal pd st ip ms iso rand body w).1 with
    | .createdSignal i => live ++ [i]
    | _ => live
  | .approve _ _ _ _ => live
  | .reject body w =>
    if (postReject st body w).1 = .okJson then
      match extractId body with
      | some id => live.erase id
      | none => live
    else live

theorem liveAfter_submit (pd : String → Bool) (st : ServerState)
    (live : List String) (ip : String) (ms : Int) (iso rand : String)
    (body : JsValue) (w : Bool) :
    liveAfter pd st live (.submit ip ms iso rand body w) =
      match (postSignal pd st ip ms iso rand body w).1 with
      | .createdSignal i => live ++ [i]
      | _ => live := rfl

theorem liveAfter_approve (pd : String → Bool) (st : ServerState)
    (live : List String) (body : JsValue) (iso : String) (wA wP : Bool) :
    liveAfter pd st live (.approve body iso wA wP) = live := rfl

theorem liveAfter_reject (pd : String → Bool) (st : ServerState)
    (live : List String) (body : JsValue) (w : Bool) :
    liveAfter pd st live (.reject body w) =
      (if (postReject st body w).1 = .okJson then
        match extractId body with
        | some id => live.erase id
        | none => live
      else live) := rfl

/-- Side conditions under which the partition/uniqueness invariants are
provable: a submit is assigned an id not already present in either
collection, and an approve call's two collection writes either both succeed
or both fail. -/
def goodOp (st : ServerState) : Op → Prop
  | .submit _ ms _ rand body _ => assignId body ms rand ∉ allIds st
  | .approve _ _ wA wP => wA = wP
  | .reject _ _ => True

def goodOps (pd : String → Bool) : ServerState → List Op → Prop
  | _, [] => True
  | st, op :: ops => goodOp st op ∧ goodOps pd (applyOp pd st op).2 ops

def runLive (pd : String → Bool) :
    ServerState → List String → List Op → ServerState × List String
  | st, live, [] => (st, live)
  | st, live, op :: ops =>
    runLive pd (applyOp pd st op).2 (liveAfter pd st live op) ops

theorem runLive_fst (pd : String → Bool) (ops : List Op) :
    ∀ st live, (runLive pd st live ops).1 = runOps pd st ops := by
  induction ops with
  | nil => intro st live; rfl
  | cons op ops ih => intro st live; exact ih _ _

/-- The partition invariant: ids across the two collections are mutually
distinct, and they are exactly the live ids (up to order). -/
def StoreInv (st : ServerState) (live : List String) : Prop :=
  (allIds st).Nodup ∧ (allIds st).Perm live

theorem storeInv_step (pd : String → Bool) (st : ServerState)
    (live : List String) (op : Op) (hInv : StoreInv st live)
    (hop : goodOp st op) :
    StoreInv (applyOp pd st op).2 (liveAfter pd st live op) := by
  obtain ⟨hnd, hperm⟩ := hInv
  cases op with
  | submit ip ms iso rand body w =>
    obtain ⟨happ, hcase⟩ := postSignal_cases pd st ip ms iso rand body w
    have hopf : assignId body ms rand ∉ allIds st := hop
    rcases hcase with ⟨hnot, hpend⟩ | ⟨hresp, hpend⟩
    · have hl : liveAfter pd st live (.submit ip ms iso rand body w) = live := by
        rw [liveAfter_submit]
        cases hr : (postSignal pd st ip ms iso rand body w).1 <;>
          first
            | rfl
            | exact absurd hr (hnot _)
      have hids : allIds (applyOp pd st (.submit ip ms iso rand body w)).2 =
          allIds st := by
        show allIds (postSignal pd st ip ms iso rand body w).2 = allIds st
        rw [allIds, allIds, pendingIds, pendingIds, approvedIds, approvedIds,
          hpend, happ]
      rw [hl]
      exact ⟨by rw [hids]; exact hnd, by rw [hids]; exact hperm⟩
    · have hl : liveAfter pd st live (.submit ip ms iso rand body w) =
          live ++ [assignId body ms rand] := by
        rw [liveAfter_submit]
        rw [hresp]
      have hids : allIds (applyOp pd st (.submit ip ms iso rand body w)).2 =
          (pendingIds st ++ [assignId body ms rand]) ++ approvedIds st := by
        show allIds (postSignal pd st ip ms iso rand body w).2 = _
        rw [allIds, pendingIds, approvedIds, hpend, happ]
        rw [show readJsonArray (FileState.content (.arr
          (readJsonArray st.pendingFile ++
            [buildNewSignal body (assignId body ms rand) iso]))) =
          readJsonArray st.pendingFile ++
            [buildNewSignal body (assignId body ms rand) iso] from rfl]
        rw [idsOf_append, idsOf_cons_some (recordId_buildNewSignal body _ iso),
          idsOf_nil]
        rfl
      have hperm2 : ((pendingIds st ++ [assignId body ms rand]) ++
          approvedIds st).Perm (allIds st ++ [assignId body ms rand]) := by
        rw [List.append_assoc, allIds, List.append_assoc]
        exact List.Perm.append_left _ (List.perm_append_comm)
      rw [hl]
      constructor
      · rw [hids]
        refine hperm2.nodup_iff.2 ?_
        exact hnd.append (List.nodup_singleton _) (List.disjoint_singleton.2 hopf)
      · rw [hids]
        exact hperm2.trans (hperm.append_right _)
  | approve body iso wA wP =>
    have hl : liveAfter pd st live (.approve body iso wA wP) = live := rfl
    rw [hl]
    show StoreInv (postApprove st body iso wA wP).2 live
    have hww : wA = wP := hop
    rcases postApprove_cases st body iso wA wP with hst |
      ⟨id, sig, rest, hid, hrem, hst⟩
    · rw [hst]; exact ⟨hnd, hperm⟩
    · subst hww
      cases wA with
      | false =>
        rw [hst]
        simp only [Bool.false_eq_true, if_false]
        exact ⟨hnd, hperm⟩
      | true =>
        obtain ⟨hrid, hpermRem, herase⟩ := removeById_spec hrem
        have hidmem : id ∈ pendingIds st := removeById_mem hrem
        have hallids : allIds (postApprove st body iso true true).2 =
            ((pendingIds st).erase id ++ approvedIds st) ++ [id] := by
          rw [hst]
          simp only [if_true]
          rw [allIds]
          rw [show pendingIds { st with
              pendingFile := FileState.content (.arr rest),
              approvedFile := FileState.content (.arr
                (readJsonArray st.approvedFile ++ [approvedRecord sig iso])) } =
            idsOf rest from rfl]
          rw [show approvedIds { st with
              pendingFile := FileState.content (.arr rest),
              approvedFile := FileState.content (.arr
                (readJsonArray st.approvedFile ++ [approvedRecord sig iso])) } =
            idsOf (readJsonArray st.approvedFile ++ [approvedRecord sig iso])
            from rfl]
          rw [idsOf_append, herase,
            idsOf_cons_some (by rw [recordId_approvedRecord]; exact hrid),
            idsOf_nil, ← List.append_assoc]
          rfl
        have hpermAll : (((pendingIds st).erase id ++ approvedIds st) ++
            [id]).Perm (allIds st) := by
          refine (List.perm_append_singleton _ _).trans ?_
          have h1 : (pendingIds st).Perm (id :: (pendingIds st).erase id) :=
            List.perm_cons_erase hidmem
          have : (id :: ((pendingIds st).erase id ++ approvedIds st)) =
              (id :: (pendingIds st).erase id) ++ approvedIds st := rfl
          rw [this, allIds]
          exact h1.symm.append_right _
        constructor
        · rw [hallids]
          exact hpermAll.nodup_iff.2 hnd
        · rw [hallids]
          exact hpermAll.trans hperm
  | reject body w =>
    rcases postReject_cases st body w with ⟨hne, hst⟩ |
      ⟨id, sig, rest, hresp, hid, hrem, hst⟩
    · have hl : liveAfter pd st live (.reject body w) = live := by
        rw [liveAfter_reject]
        rw [if_neg hne]
      rw [hl]
      show StoreInv (postReject st body w).2 live
      rw [hst]
      exact ⟨hnd, hperm⟩
    · have hl : liveAfter pd st live (.reject body w) = live.erase id := by
        rw [liveAfter_reject]
        rw [if_pos hresp, hid]
      obtain ⟨hrid, hpermRem, herase⟩ := removeById_spec hrem
      have hidmem : id ∈ pendingIds st := removeById_mem hrem
      have hallids : allIds (postReject st body w).2 = (allIds st).erase id := by
        rw [hst]
        rw [allIds]
        rw [show pendingIds { st with
            pendingFile := FileState.content (.arr rest) } = idsOf rest from rfl]
        rw [show approvedIds { st with
            pendingFile := FileState.content (.arr rest) } = approvedIds st
          from rfl]
        rw [herase, allIds]
        exact (List.erase_append_left _ hidmem).symm
      rw [hl]
      show StoreInv (postReject st body w).2 (live.erase id)
      constructor
      · rw [hallids]
        exact List.Nodup.sublist (List.erase_sublist _ _) hnd
      · rw [hallids]
        exact hperm.erase id

theorem storeInv_runLive (pd : String → Bool) (ops : List Op) :
    ∀ st live, StoreInv st live → goodOps pd st ops →
      StoreInv (runLive pd st live ops).1 (runLive pd st live ops).2 := by
  induction ops with
  | nil => intro st live h _; exact h
  | cons op ops ih =>
    intro st live h hg
    obtain ⟨h1, h2⟩ := hg
    exact ih _ _ (storeInv_step pd st live op h h1) h2

theorem storeInv_initial : StoreInv initialState [] :=
  ⟨List.nodup_nil, List.Perm.refl _⟩

/-- A date-validity oracle accepting every string; used to instantiate the
host `Date`-parsing parameter on concrete runs. -/
def pdTrue : String → Bool := fun _ => true

/-- C1.  For every approve(id) call where id is a string present in the
pending collection and both collection writes succeed, the record with that
id is removed from pending and appears in approved with status 'approved'
and a non-empty approvedAt timestamp, and the total number of records across
pending and approved together is unchanged.  (The pending ids are assumed
mutually distinct, as presupposed by "the record with that id".) -/
theorem c1_approve_moves_record (st : ServerState) (body sig : JsValue)
    (rest : List JsValue) (id iso : String)
    (hid : extractId body = some id)
    (hfound : removeById (readJsonArray st.pendingFile) id = some (sig, rest))
    (hnodup : (pendingIds st).Nodup)
    (hiso : iso ≠ "") :
    (postApprove st body iso true true).1 = .okJson ∧
    id ∉ pendingIds (postApprove st body iso true true).2 ∧
    id ∈ approvedIds (postApprove st body iso true true).2 ∧
    (∃ r, r ∈ readJsonArray (postApprove st body iso true true).2.approvedFile ∧
      recordId r = some id ∧
      getField r "status" = some (.str "approved") ∧
      getField r "approvedAt" = some (.str iso) ∧ iso ≠ "") ∧
    (readJsonArray (postApprove st body iso true true).2.pendingFile).length +
      (readJsonArray (postApprove st body iso true true).2.approvedFile).length =
    (readJsonArray st.pendingFile).length +
      (readJsonArray st.approvedFile).length := by
  obtain ⟨hrid, hpermRem, herase⟩ := removeById_spec hfound
  have hpost : postApprove st body iso true true =
      (.okJson, { st with
        pendingFile := FileState.content (.arr rest),
        approvedFile := FileState.content (.arr (readJsonArray st.approvedFile ++
          [approvedRecord sig iso])) }) := by
    simp [postApprove, hid, hfound, writeJsonArray]
  rw [hpost]
  refine ⟨rfl, ?_, ?_, ?_, ?_⟩
  · show id ∉ idsOf rest
    rw [herase]
    exact hnodup.not_mem_erase
  · show id ∈ idsOf (readJsonArray st.approvedFile ++ [approvedRecord sig iso])
    rw [idsOf_append,
      idsOf_cons_some (by rw [recordId_approvedRecord]; exact hrid), idsOf_nil]
    exact List.mem_append_right _ (List.mem_singleton_self _)
  · refine ⟨approvedRecord sig iso,
      List.mem_append_right _ (List.mem_singleton_self _),
      by rw [recordId_approvedRecord]; exact hrid,
      getField_approvedRecord_status sig iso,
      getField_approvedRecord_approvedAt sig iso, hiso⟩
  · show rest.length + (readJsonArray st.approvedFile ++
      [approvedRecord sig iso]).length = _
    have hlen : (readJsonArray st.pendingFile).length = rest.length + 1 := by
      rw [hpermRem.length_eq]; rfl
    rw [List.length_append, hlen]
    simp
    omega

/-- Witness for C1 at a concrete one-record pending store. -/
theorem c1_approve_moves_record_witness :
    (postApprove
      ⟨.content (.arr [.obj [("id", .str "a"), ("title", .str "T")]]),
        .absent, []⟩
      (.obj [("id", .str "a")]) "2024-01-01T00:00:00.000Z" true true).1 =
        .okJson ∧
    "a" ∉ pendingIds (postApprove
      ⟨.content (.arr [.obj [("id", .str "a"), ("title", .str "T")]]),
        .absent, []⟩
      (.obj [("id", .str "a")]) "2024-01-01T00:00:00.000Z" true true).2 ∧
    "a" ∈ approvedIds (postApprove
      ⟨.content (.arr [.obj [("id", .str "a"), ("title", .str "T")]]),
        .absent, []⟩
      (.obj [("id", .str "a")]) "2024-01-01T00:00:00.000Z" true true).2 ∧
    (∃ r, r ∈ readJsonArray (postApprove
      ⟨.content (.arr [.obj [("id", .str "a"), ("title", .str "T")]]),
        .absent, []⟩
      (.obj [("id", .str "a")]) "2024-01-01T00:00:00.000Z" true
        true).2.approvedFile ∧
      recordId r = some "a" ∧
      getField r "status" = some (.str "approved") ∧
      getField r "approvedAt" = some (.str "2024-01-01T00:00:00.000Z") ∧
      ("2024-01-01T00:00:00.000Z" : String) ≠ "") ∧
    (readJsonArray (postApprove
      ⟨.content (.arr [.obj [("id", .str "a"), ("title", .str "T")]]),
        .absent, []⟩
      (.obj [("id", .str "a")]) "2024-01-01T00:00:00.000Z" true
        true).2.pendingFile).length +
      (readJsonArray (postApprove
        ⟨.content (.arr [.obj [("id", .str "a"), ("title", .str "T")]]),
          .absent, []⟩
        (.obj [("id", .str "a")]) "2024-01-01T00:00:00.000Z" true
          true).2.approvedFile).length =
    (readJsonArray (FileState.content
      (.arr [.obj [("id", .str "a"), ("title", .str "T")]]))).length +
      (readJsonArray FileState.absent).length :=
  c1_approve_moves_record
    ⟨.content (.arr [.obj [("id", .str "a"), ("title", .str "T")]]),
      .absent, []⟩
    (.obj [("id", .str "a")]) (.obj [("id", .str "a"), ("title", .str "T")])
    [] "a" "2024-01-01T00:00:00.000Z" rfl rfl (by decide) (by decide)

/-- C2 counterexample.  The claim quantifies over runs in which each
collection write may succeed or fail.  Submitting a record and then
approving it with the approved-file write succeeding but the pending-file
write failing (the code writes approved before pending) leaves the record
present in both persisted collections at once, while the handler reports a
500. -/
theorem c2_counterexample :
    (applyOp pdTrue
      (runOps pdTrue initialState
        [.submit "ip" 0 "ISO" "r"
          (.obj [("title", .str "T"), ("startTime", .str "S"),
            ("id", .str "x")]) true])
      (.approve (.obj [("id", .str "x")]) "ISO2" true false)).1 =
        .serverError "Failed to save approval update" ∧
    "x" ∈ pendingIds
      (runOps pdTrue initialState
        [.submit "ip" 0 "ISO" "r"
          (.obj [("title", .str "T"), ("startTime", .str "S"),
            ("id", .str "x")]) true,
         .approve (.obj [("id", .str "x")]) "ISO2" true false]) ∧
    "x" ∈ approvedIds
      (runOps pdTrue initialState
        [.submit "ip" 0 "ISO" "r"
          (.obj [("title", .str "T"), ("startTime", .str "S"),
            ("id", .str "x")]) true,
         .approve (.obj [("id", .str "x")]) "ISO2" true false]) := by
  refine ⟨rfl, ?_, ?_⟩ <;> decide

/-- C2 amended.  Provided every submit is assigned an id not already present
in either collection and every approve call's two collection writes either
both succeed or both fail, every reachable state partitions the live records
(successfully submitted and not since successfully rejected): no id is in
both collections at once, and every live id is in one of them. -/
theorem c2_amended_partition (pd : String → Bool) (ops : List Op)
    (h : goodOps pd initialState ops) :
    (∀ id, ¬(id ∈ pendingIds (runLive pd initialState [] ops).1 ∧
             id ∈ approvedIds (runLive pd initialState [] ops).1)) ∧
    (∀ id, id ∈ (runLive pd initialState [] ops).2 ↔
       (id ∈ pendingIds (runLive pd initialState [] ops).1 ∨
        id ∈ approvedIds (runLive pd initialState [] ops).1)) := by
  obtain ⟨hnd, hperm⟩ := storeInv_runLive pd ops initialState [] storeInv_initial h
  constructor
  · rintro id ⟨h1, h2⟩
    exact (List.disjoint_of_nodup_append hnd) h1 h2
  · intro id
    rw [← List.mem_append]
    exact hperm.mem_iff.symm

/-- Witness for C2 amended: one fresh submit followed by an approve whose
writes both succeed. -/
theorem c2_amended_partition_witness :
    (∀ id, ¬(id ∈ pendingIds (runLive pdTrue initialState []
        [.submit "ip" 0 "ISO" "r"
          (.obj [("title", .str "T"), ("startTime", .str "S"),
            ("id", .str "x")]) true,
         .approve (.obj [("id", .str "x")]) "ISO2" true true]).1 ∧
       id ∈ approvedIds (runLive pdTrue initialState []
        [.submit "ip" 0 "ISO" "r"
          (.obj [("title", .str "T"), ("startTime", .str "S"),
            ("id", .str "x")]) true,
         .approve (.obj [("id", .str "x")]) "ISO2" true true]).1)) ∧
    (∀ id, id ∈ (runLive pdTrue initialState []
        [.submit "ip" 0 "ISO" "r"
          (.obj [("title", .str "T"), ("startTime", .str "S"),
            ("id", .str "x")]) true,
         .approve (.obj [("id", .str "x")]) "ISO2" true true]).2 ↔
       (id ∈ pendingIds (runLive pdTrue initialState []
        [.submit "ip" 0 "ISO" "r"
          (.obj [("title", .str "T"), ("startTime", .str "S"),
            ("id", .str "x")]) true,
         .approve (.obj [("id", .str "x")]) "ISO2" true true]).1 ∨
        id ∈ approvedIds (runLive pdTrue initialState []
        [.submit "ip" 0 "ISO" "r"
          (.obj [("title", .str "T"), ("startTime", .str "S"),
            ("id", .str "x")]) true,
         .approve (.obj [("id", .str "x")]) "ISO2" true true]).1)) :=
  c2_amended_partition pdTrue
    [.submit "ip" 0 "ISO" "r"
      (.obj [("title", .str "T"), ("startTime", .str "S"),
        ("id", .str "x")]) true,
     .approve (.obj [("id", .str "x")]) "ISO2" true true]
    ⟨by unfold goodOp; decide, rfl, trivial⟩

/-- C3 counterexample.  Two submissions supplying the same client id "x" are
both accepted (201), leaving two records with the same id in pending: the
union of the collections has a duplicated id. -/
theorem c3_counterexample :
    (applyOp pdTrue initialState
      (.submit "a" 0 "ISO" "r"
        (.obj [("title", .str "T"), ("startTime", .str "S"),
          ("id", .str "x")]) true)).1 = .createdSignal "x" ∧
    (applyOp pdTrue
      (runOps pdTrue initialState
        [.submit "a" 0 "ISO" "r"
          (.obj [("title", .str "T"), ("startTime", .str "S"),
            ("id", .str "x")]) true])
      (.submit "b" 1 "ISO" "r"
        (.obj [("title", .str "T"), ("startTime", .str "S"),
          ("id", .str "x")]) true)).1 = .createdSignal "x" ∧
    pendingIds (runOps pdTrue initialState
      [.submit "a" 0 "ISO" "r"
        (.obj [("title", .str "T"), ("startTime", .str "S"),
          ("id", .str "x")]) true,
       .submit "b" 1 "ISO" "r"
        (.obj [("title", .str "T"), ("startTime", .str "S"),
          ("id", .str "x")]) true]) = ["x", "x"] ∧
    ¬(allIds (runOps pdTrue initialState
      [.submit "a" 0 "ISO" "r"
        (.obj [("title", .str "T"), ("startTime", .str "S"),
          ("id", .str "x")]) true,
       .submit "b" 1 "ISO" "r"
        (.obj [("title", .str "T"), ("startTime", .str "S"),
          ("id", .str "x")]) true])).Nodup := by
  refine ⟨rfl, rfl, by decide, by decide⟩

/-- C3 amended.  The code performs no duplicate check, so uniqueness of ids
holds only under the freshness side condition (and write-agreement on
approve): then the ids in the union of the two collections are pairwise
distinct in every reachable state. -/
theorem c3_amended_ids_nodup (pd : String → Bool) (ops : List Op)
    (h : goodOps pd initialState ops) :
    (allIds (runOps pd initialState ops)).Nodup := by
  have h2 := (storeInv_runLive pd ops initialState [] storeInv_initial h).1
  rwa [runLive_fst] at h2

/-- Witness for C3 amended: two submits with distinct fresh ids. -/
theorem c3_amended_ids_nodup_witness :
    (allIds (runOps pdTrue initialState
      [.submit "a" 0 "ISO" "r"
        (.obj [("title", .str "T"), ("startTime", .str "S"),
          ("id", .str "u")]) true,
       .submit "b" 1 "ISO" "r"
        (.obj [("title", .str "T"), ("startTime", .str "S"),
          ("id", .str "v")]) true])).Nodup :=
  c3_amended_ids_nodup pdTrue
    [.submit "a" 0 "ISO" "r"
      (.obj [("title", .str "T"), ("startTime", .str "S"),
        ("id", .str "u")]) true,
     .submit "b" 1 "ISO" "r"
      (.obj [("title", .str "T"), ("startTime", .str "S"),
        ("id", .str "v")]) true]
    ⟨by unfold goodOp; decide, by unfold goodOp; decide, trivial⟩

/-- C4 counterexample.  The submit handler spreads the client payload into
the new record and overrides only id, status and submittedAt, so a client
payload carrying an approvedAt field produces a pending record with both
status 'pending' and a present approvedAt. -/
theorem c4_counterexample :
    (postSignal pdTrue initialState "ip" 0 "ISO" "r"
      (.obj [("title", .str "T"), ("startTime", .str "S"),
        ("approvedAt", .str "HA")]) true).1 = .createdSignal "sig-0-r" ∧
    getField ((readJsonArray (postSignal pdTrue initialState "ip" 0 "ISO" "r"
      (.obj [("title", .str "T"), ("startTime", .str "S"),
        ("approvedAt", .str "HA")]) true).2.pendingFile).headD .null)
      "approvedAt" = some (.str "HA") ∧
    getField ((readJsonArray (postSignal pdTrue initialState "ip" 0 "ISO" "r"
      (.obj [("title", .str "T"), ("startTime", .str "S"),
        ("approvedAt", .str "HA")]) true).2.pendingFile).headD .null)
      "status" = some (.str "pending") :=
  ⟨rfl, rfl, rfl⟩

/-- Every record of both collections carries a status matching its
collection, and an approvedAt exactly on the approved side. -/
def CleanRecords (st : ServerState) : Prop :=
  (∀ r ∈ readJsonArray st.pendingFile,
    getField r "status" = some (.str "pending") ∧
    getField r "approvedAt" = none) ∧
  (∀ r ∈ readJsonArray st.approvedFile,
    getField r "status" = some (.str "approved") ∧
    ∃ s, getField r "approvedAt" = some (.str s))

/-- The side condition forced by the C4 counterexample: the client payload of
a submit carries no approvedAt field. -/
def opNoClientApprovedAt : Op → Prop
  | .submit _ _ _ _ body _ => getField body "approvedAt" = none
  | _ => True

theorem cleanRecords_step (pd : String → Bool) (st : ServerState) (op : Op)
    (hInv : CleanRecords st) (hop : opNoClientApprovedAt op) :
    CleanRecords (applyOp pd st op).2 := by
  obtain ⟨hp, ha⟩ := hInv
  cases op with
  | submit ip ms iso rand body w =>
    obtain ⟨happ, hcase⟩ := postSignal_cases pd st ip ms iso rand body w
    show CleanRecords (postSignal pd st ip ms iso rand body w).2
    constructor
    · rcases hcase with ⟨_, hpend⟩ | ⟨_, hpend⟩
      · rw [hpend]; exact hp
      · rw [hpend]
        intro r hr
        rw [show readJsonArray (FileState.content (.arr
          (readJsonArray st.pendingFile ++
            [buildNewSignal body (assignId body ms rand) iso]))) =
          readJsonArray st.pendingFile ++
            [buildNewSignal body (assignId body ms rand) iso] from rfl] at hr
        rcases List.mem_append.1 hr with hr' | hr'
        · exact hp r hr'
        · rw [List.mem_singleton.1 hr']
          refine ⟨getField_buildNewSignal_status _ _ _, ?_⟩
          rw [getField_buildNewSignal_other _ _ _ _ (by decide) (by decide)
            (by decide)]
          exact hop
    · rw [happ]; exact ha
  | approve body iso wA wP =>
    show CleanRecords (postApprove st body iso wA wP).2
    rcases postApprove_cases st body iso wA wP with hst |
      ⟨id, sig, rest, hid, hrem, hst⟩
    · rw [hst]; exact ⟨hp, ha⟩
    · obtain ⟨hrid, hpermRem, herase⟩ := removeById_spec hrem
      have hsig : sig ∈ readJsonArray st.pendingFile :=
        hpermRem.mem_iff.2 (List.mem_cons_self _ _)
      rw [hst]
      constructor
      · cases wP with
        | false => exact hp
        | true =>
          intro r hr
          refine hp r (hpermRem.mem_iff.2 (List.mem_cons_of_mem _ ?_))
          exact hr
      · cases wA with
        | false => exact ha
        | true =>
          intro r hr
          have hr2 : r ∈ readJsonArray st.approvedFile ∨
              r = approvedRecord sig iso := by
            simpa [readJsonArray] using hr
          rcases hr2 with hr' | rfl
          · exact ha r hr'
          · exact ⟨getField_approvedRecord_status sig iso,
              iso, getField_approvedRecord_approvedAt sig iso⟩
  | reject body w =>
    show CleanRecords (postReject st body w).2
    rcases postReject_cases st body w with ⟨_, hst⟩ |
      ⟨id, sig, rest, _, hid, hrem, hst⟩
    · rw [hst]; exact ⟨hp, ha⟩
    · obtain ⟨hrid, hpermRem, herase⟩ := removeById_spec hrem
      rw [hst]
      exact ⟨fun r hr => hp r (hpermRem.mem_iff.2 (List.mem_cons_of_mem _ hr)),
        ha⟩

theorem cleanRecords_run (pd : String → Bool) (ops : List Op) :
    ∀ st, CleanRecords st → (∀ op ∈ ops, opNoClientApprovedAt op) →
      CleanRecords (runOps pd st ops) := by
  induction ops with
  | nil => intro st h _; exact h
  | cons op ops ih =>
    intro st h hops
    exact ih _ (cleanRecords_step pd st op h (hops op (List.mem_cons_self _ _)))
      (fun o ho => hops o (List.mem_cons_of_mem _ ho))

theorem cleanRecords_initial : CleanRecords initialState :=
  ⟨fun r hr => absurd hr (List.not_mem_nil r),
   fun r hr => absurd hr (List.not_mem_nil r)⟩

/-- C4 amended.  Provided no client payload of a submit includes an
approvedAt field, then in every reachable state a record of either
collection carries approvedAt exactly when its status is 'approved' (as the
counterexample shows, a client-supplied approvedAt survives into a pending
record otherwise). -/
theorem c4_amended_approvedAt_iff_status (pd : String → Bool) (ops : List Op)
    (h : ∀ op ∈ ops, opNoClientApprovedAt op) :
    ∀ r, (r ∈ readJsonArray (runOps pd initialState ops).pendingFile ∨
          r ∈ readJsonArray (runOps pd initialState ops).approvedFile) →
      ((getField r "approvedAt").isSome ↔
        getField r "status" = some (.str "approved")) := by
  have hc := cleanRecords_run pd ops initialState cleanRecords_initial h
  intro r hr
  rcases hr with hr | hr
  · obtain ⟨h1, h2⟩ := hc.1 r hr
    rw [h1, h2]
    simp
  · obtain ⟨h1, s, h2⟩ := hc.2 r hr
    rw [h1, h2]
    simp

/-- Witness for C4 amended: the approved record of a clean run, fully
instantiated. -/
theorem c4_amended_approvedAt_iff_status_witness :
    (getField (.obj [("title", .str "T"), ("startTime", .str "S"),
      ("id", .str "x"), ("status", .str "approved"),
      ("submittedAt", .str "ISO"), ("approvedAt", .str "ISO2")])
      "approvedAt").isSome ↔
    getField (.obj [("title", .str "T"), ("startTime", .str "S"),
      ("id", .str "x"), ("status", .str "approved"),
      ("submittedAt", .str "ISO"), ("approvedAt", .str "ISO2")])
      "status" = some (.str "approved") :=
  c4_amended_approvedAt_iff_status pdTrue
    [.submit "ip" 0 "ISO" "r"
      (.obj [("title", .str "T"), ("startTime", .str "S"),
        ("id", .str "x")]) true,
     .approve (.obj [("id", .str "x")]) "ISO2" true true]
    (by
      intro op hop
      rcases List.mem_cons.1 hop with rfl | hop'
      · rfl
      · rcases List.mem_cons.1 hop' with rfl | hop''
        · trivial
        · exact absurd hop'' (List.not_mem_nil _))
    (.obj [("title", .str "T"), ("startTime", .str "S"),
      ("id", .str "x"), ("status", .str "approved"),
      ("submittedAt", .str "ISO"), ("approvedAt", .str "ISO2")])
    (Or.inr (List.mem_cons_self _ _))

/-- C5.  A client with 5 recorded in-window timestamps is rejected on the
next attempt with retryAfterSeconds equal to the time remaining until the
oldest in-window timestamp ages out, rounded up to whole seconds and at
least 1 (the map is left unchanged); once now has advanced strictly past
that oldest timestamp plus the window, an attempt is allowed.  The recorded
list is chronological (sorted), as the limiter only ever appends the current
time. -/
theorem c5_rate_limit_boundary (hits : List (String × List Int)) (ip : String)
    (l : List Int) (now : Int)
    (hl : hitsGet hits ip = l)
    (hsorted : l.Sorted (· ≤ ·))
    (hcount : (l.filter (fun ts => now - ts ≤ RATE_LIMIT_WINDOW_MS)).length =
      RATE_LIMIT_MAX_SUBMISSIONS) :
    ∃ oldest,
      (l.filter (fun ts => now - ts ≤ RATE_LIMIT_WINDOW_MS)).head? =
        some oldest ∧
      (∀ ts ∈ l, now - ts ≤ RATE_LIMIT_WINDOW_MS → oldest ≤ ts) ∧
      enforceSubmissionRateLimit hits ip now =
        (.limited (max 1
          (((oldest + RATE_LIMIT_WINDOW_MS - now).toNat + 999) / 1000)),
         hits) ∧
      (∀ later, now ≤ later → oldest + RATE_LIMIT_WINDOW_MS < later →
        (enforceSubmissionRateLimit hits ip later).1 = .allowed) := by
  cases hrec : l.filter (fun ts => now - ts ≤ RATE_LIMIT_WINDOW_MS) with
  | nil =>
    rw [hrec] at hcount
    simp [RATE_LIMIT_MAX_SUBMISSIONS] at hcount
  | cons a t =>
    have hcount' : (a :: t).length = RATE_LIMIT_MAX_SUBMISSIONS := by
      rw [← hrec]; exact hcount
    have hsf : (a :: t).Sorted (· ≤ ·) := by
      rw [← hrec]; exact hsorted.filter _
    refine ⟨a, rfl, ?_, ?_, ?_⟩
    · intro ts hts hwin
      have hmem : ts ∈ a :: t := by
        rw [← hrec]
        exact List.mem_filter.2 ⟨hts, by simpa using hwin⟩
      rcases List.mem_cons.1 hmem with rfl | hmem'
      · exact le_refl _
      · exact (List.pairwise_cons.1 hsf).1 ts hmem'
    · simp only [enforceSubmissionRateLimit]
      rw [hl, hrec, if_pos (le_of_eq hcount'.symm)]
      have harg : RATE_LIMIT_WINDOW_MS - (now - (a :: t).headD 0) =
          a + RATE_LIMIT_WINDOW_MS - now := by
        show RATE_LIMIT_WINDOW_MS - (now - a) = _
        ring
      rw [harg]
      rfl
    · intro later hle hgt
      have hsub : List.Sublist
          (l.filter (fun ts => later - ts ≤ RATE_LIMIT_WINDOW_MS))
          (l.filter (fun ts => now - ts ≤ RATE_LIMIT_WINDOW_MS)) := by
        refine List.monotone_filter_right l ?_
        intro x hx
        simp only [decide_eq_true_eq] at hx ⊢
        omega
      have hmemA : a ∈ l.filter (fun ts => now - ts ≤ RATE_LIMIT_WINDOW_MS) := by
        rw [hrec]; exact List.mem_cons_self _ _
      have hnotA : a ∉ l.filter (fun ts => later - ts ≤ RATE_LIMIT_WINDOW_MS) := by
        simp only [List.mem_filter, decide_eq_true_eq]
        rintro ⟨-, hc⟩
        omega
      have hlt : (l.filter (fun ts => later - ts ≤ RATE_LIMIT_WINDOW_MS)).length <
          RATE_LIMIT_MAX_SUBMISSIONS := by
        by_contra hcon
        push_cast at hcon
        have hge := Nat.le_of_not_lt hcon
        have hle2 := hsub.length_le
        rw [hcount] at hle2
        have heq := hsub.eq_of_length (by omega)
        rw [heq] at hnotA
        exact hnotA hmemA
      simp only [enforceSubmissionRateLimit]
      rw [hl, if_neg (Nat.not_le.2 hlt)]

/-- Witness for C5: five hits at ms 0..4, a sixth attempt at ms 5. -/
theorem c5_rate_limit_boundary_witness :
    ∃ oldest,
      (([0, 1, 2, 3, 4] : List Int).filter
        (fun ts => (5 : Int) - ts ≤ RATE_LIMIT_WINDOW_MS)).head? =
        some oldest ∧
      (∀ ts ∈ ([0, 1, 2, 3, 4] : List Int),
        (5 : Int) - ts ≤ RATE_LIMIT_WINDOW_MS → oldest ≤ ts) ∧
      enforceSubmissionRateLimit [("ip", [0, 1, 2, 3, 4])] "ip" 5 =
        (.limited (max 1
          (((oldest + RATE_LIMIT_WINDOW_MS - 5).toNat + 999) / 1000)),
         [("ip", [0, 1, 2, 3, 4])]) ∧
      (∀ later, (5 : Int) ≤ later → oldest + RATE_LIMIT_WINDOW_MS < later →
        (enforceSubmissionRateLimit [("ip", [0, 1, 2, 3, 4])] "ip" later).1 =
          .allowed) :=
  c5_rate_limit_boundary [("ip", [0, 1, 2, 3, 4])] "ip" [0, 1, 2, 3, 4] 5
    rfl (by decide) (by decide)

/-- C6 counterexample.  The rate-limit middleware records the hit before the
handler validates, so a submission rejected with 400 still adds a timestamp:
one invalid attempt leaves a recorded hit, and five invalid attempts exhaust
the limit so that a sixth, valid, submission is rejected with 429. -/
theorem c6_counterexample :
    (postSignal pdTrue initialState "ip" 0 "ISO" "r" (.obj []) true).1 =
      .badRequest "Missing title" ∧
    hitsGet (postSignal pdTrue initialState "ip" 0 "ISO" "r" (.obj [])
      true).2.submissionHits "ip" = [0] ∧
    (postSignal pdTrue
      (runOps pdTrue initialState
        [.submit "ip" 0 "ISO" "r" (.obj []) true,
         .submit "ip" 1 "ISO" "r" (.obj []) true,
         .submit "ip" 2 "ISO" "r" (.obj []) true,
         .submit "ip" 3 "ISO" "r" (.obj []) true,
         .submit "ip" 4 "ISO" "r" (.obj []) true])
      "ip" 5 "ISO" "r"
      (.obj [("title", .str "T"), ("startTime", .str "S")]) true).1 =
      .tooManyRequests 600 :=
  ⟨rfl, rfl, by decide⟩

/-- C6 amended.  The per-identity state records a timestamp for every
attempt that passes the rate-limit gate itself, regardless of the
submission's subsequent validation or persistence outcome; an attempt
rejected by the gate leaves the whole state unchanged. -/
theorem c6_amended_hits_record_attempts (pd : String → Bool)
    (st : ServerState) (ip : String) (ms : Int) (iso rand : String)
    (body : JsValue) (w : Bool) :
    (((hitsGet st.submissionHits ip).filter
        (fun ts => ms - ts ≤ RATE_LIMIT_WINDOW_MS)).length <
          RATE_LIMIT_MAX_SUBMISSIONS →
      (postSignal pd st ip ms iso rand body w).2.submissionHits =
        hitsSet st.submissionHits ip
          ((hitsGet st.submissionHits ip).filter
            (fun ts => ms - ts ≤ RATE_LIMIT_WINDOW_MS) ++ [ms])) ∧
    (RATE_LIMIT_MAX_SUBMISSIONS ≤ ((hitsGet st.submissionHits ip).filter
        (fun ts => ms - ts ≤ RATE_LIMIT_WINDOW_MS)).length →
      (postSignal pd st ip ms iso rand body w).2 = st) := by
  constructor
  · intro h
    have henf : enforceSubmissionRateLimit st.submissionHits ip ms =
        (.allowed, hitsSet st.submissionHits ip
          ((hitsGet st.submissionHits ip).filter
            (fun ts => ms - ts ≤ RATE_LIMIT_WINDOW_MS) ++ [ms])) := by
      simp only [enforceSubmissionRateLimit]
      rw [if_neg (Nat.not_le.2 h)]
    simp only [postSignal, henf]
    cases validateIncomingSignal pd body <;> cases w <;>
      simp [writeJsonArray]
  · intro h
    have henf : enforceSubmissionRateLimit st.submissionHits ip ms =
        (.limited (jsRetryCeil (RATE_LIMIT_WINDOW_MS - (ms -
          ((hitsGet st.submissionHits ip).filter
            (fun ts => ms - ts ≤ RATE_LIMIT_WINDOW_MS)).headD 0))),
         st.submissionHits) := by
      simp only [enforceSubmissionRateLimit]
      rw [if_pos h]
    simp only [postSignal, henf]

/-- Witness for C6 amended: an empty map records the hit of a (failing)
attempt, and a full map is left untouched. -/
theorem c6_amended_hits_record_attempts_witness :
    (postSignal pdTrue initialState "ip" 0 "ISO" "r" (.obj [])
      true).2.submissionHits =
      hitsSet initialState.submissionHits "ip"
        ((hitsGet initialState.submissionHits "ip").filter
          (fun ts => (0 : Int) - ts ≤ RATE_LIMIT_WINDOW_MS) ++ [0]) ∧
    (postSignal pdTrue ⟨.absent, .absent, [("ip", [0, 1, 2, 3, 4])]⟩
      "ip" 5 "ISO" "r" (.obj [("title", .str "T"), ("startTime", .str "S")])
      true).2 = ⟨.absent, .absent, [("ip", [0, 1, 2, 3, 4])]⟩ :=
  ⟨(c6_amended_hits_record_attempts pdTrue initialState "ip" 0 "ISO" "r"
      (.obj []) true).1 (by decide),
   (c6_amended_hits_record_attempts pdTrue
      ⟨.absent, .absent, [("ip", [0, 1, 2, 3, 4])]⟩ "ip" 5 "ISO" "r"
      (.obj [("title", .str "T"), ("startTime", .str "S")]) true).2
      (by decide)⟩

/-- Spec-side condition from C7: the payload is not a structured object
(falsy, or not of JS object type). -/
def specPayloadNotObject (payload : JsValue) : Prop :=
  ¬(truthy payload = true ∧ isObjectType payload = true)

/-- Spec-side condition from C7: the title field is missing, not a string,
or blank after trimming. -/
def specTitleRejected (payload : JsValue) : Prop :=
  match getField payload "title" with
  | some (.str s) => jsTrim s = ""
  | _ => True

/-- Spec-side condition from C7: the startTime field is missing, not a
string, blank after trimming, or does not parse to a valid instant. -/
def specStartTimeRejected (isValidDate : String → Bool) (payload : JsValue) :
    Prop :=
  match getField payload "startTime" with
  | some (.str s) => jsTrim s = "" ∨ isValidDate (jsTrim s) = false
  | _ => True

/-- C7.  validate(payload) fails exactly when the payload is not a
structured object, or its title is missing/non-string/blank, or its
startTime is missing/non-string/blank/unparsable; and no other field of the
payload affects the outcome. -/
theorem c7_validator_characterization (pd : String → Bool) :
    (∀ payload, (∃ m, validateIncomingSignal pd payload = .fail m) ↔
      (specPayloadNotObject payload ∨ specTitleRejected payload ∨
        specStartTimeRejected pd payload)) ∧
    (∀ p₁ p₂, truthy p₁ = truthy p₂ → isObjectType p₁ = isObjectType p₂ →
      getField p₁ "title" = getField p₂ "title" →
      getField p₁ "startTime" = getField p₂ "startTime" →
      validateIncomingSignal pd p₁ = validateIncomingSignal pd p₂) := by
  constructor
  · intro payload
    by_cases h1 : (!truthy payload || !isObjectType payload) = true
    · have hns : specPayloadNotObject payload := by
        rintro ⟨ht, ho⟩
        rw [ht, ho] at h1
        simp at h1
      have hfail : validateIncomingSignal pd payload = .fail "Invalid payload" := by
        simp [validateIncomingSignal, h1]
      simp [hfail, hns]
    · obtain ⟨htr, hob⟩ : truthy payload = true ∧ isObjectType payload = true := by
        rcases hx : truthy payload <;> rcases hy : isObjectType payload <;>
          simp [hx, hy] at h1 ⊢
      have hns : ¬ specPayloadNotObject payload := fun hc => hc ⟨htr, hob⟩
      cases hT : getField payload "title" with
      | none =>
        have hfail : validateIncomingSignal pd payload = .fail "Missing title" := by
          simp [validateIncomingSignal, h1, hT]
        have ht3 : specTitleRejected payload := by simp [specTitleRejected, hT]
        simp [hfail, ht3]
      | some v =>
        cases v with
        | str s =>
          by_cases hs : jsTrim s = ""
          · have hfail : validateIncomingSignal pd payload =
                .fail "Missing title" := by
              simp [validateIncomingSignal, h1, hT, hs]
            have ht3 : specTitleRejected payload := by
              simp [specTitleRejected, hT, hs]
            simp [hfail, ht3]
          · have hnt : ¬ specTitleRejected payload := by
              simp [specTitleRejected, hT, hs]
            cases hS : getField payload "startTime" with
            | none =>
              have hfail : validateIncomingSignal pd payload =
                  .fail "Missing or invalid startTime" := by
                simp [validateIncomingSignal, h1, hT, hs, hS]
              have hst : specStartTimeRejected pd payload := by
                simp [specStartTimeRejected, hS]
              simp [hfail, hst]
            | some u =>
              cases u with
              | str t =>
                by_cases ht2 : jsTrim t = ""
                · have hfail : validateIncomingSignal pd payload =
                      .fail "Missing or invalid startTime" := by
                    simp [validateIncomingSignal, h1, hT, hs, hS, ht2]
                  have hst : specStartTimeRejected pd payload := by
                    simp [specStartTimeRejected, hS, ht2]
                  simp [hfail, hst]
                · by_cases hd : pd (jsTrim t) = true
                  · have hok : validateIncomingSignal pd payload = .ok := by
                      simp [validateIncomingSignal, h1, hT, hs, hS, ht2, hd]
                    have hnst : ¬ specStartTimeRejected pd payload := by
                      simp [specStartTimeRejected, hS, ht2, hd]
                    simp [hok, hns, hnt, hnst]
                  · have hd' : pd (jsTrim t) = false :=
                      Bool.not_eq_true _ ▸ Bool.eq_false_iff.2 hd
                    have hfail : validateIncomingSignal pd payload =
                        .fail "Missing or invalid startTime" := by
                      simp [validateIncomingSignal, h1, hT, hs, hS, ht2, hd']
                    have hst : specStartTimeRejected pd payload := by
                      simp [specStartTimeRejected, hS, hd']
                    simp [hfail, hst]
              | null =>
                have hfail : validateIncomingSignal pd payload =
                    .fail "Missing or invalid startTime" := by
                  simp [validateIncomingSignal, h1, hT, hs, hS]
                have hst : specStartTimeRejected pd payload := by
                  simp [specStartTimeRejected, hS]
                simp [hfail, hst]
              | bool b =>
                have hfail : validateIncomingSignal pd payload =
                    .fail "Missing or invalid startTime" := by
                  simp [validateIncomingSignal, h1, hT, hs, hS]
                have hst : specStartTimeRejected pd payload := by
                  simp [specStartTimeRejected, hS]
                simp [hfail, hst]
              | num n =>
                have hfail : validateIncomingSignal pd payload =
                    .fail "Missing or invalid startTime" := by
                  simp [validateIncomingSignal, h1, hT, hs, hS]
                have hst : specStartTimeRejected pd payload := by
                  simp [specStartTimeRejected, hS]
                simp [hfail, hst]
              | arr xs =>
                have hfail : validateIncomingSignal pd payload =
                    .fail "Missing or invalid startTime" := by
                  simp [validateIncomingSignal, h1, hT, hs, hS]
                have hst : specStartTimeRejected pd payload := by
                  simp [specStartTimeRejected, hS]
                simp [hfail, hst]
              | obj fs =>
                have hfail : validateIncomingSignal pd payload =
                    .fail "Missing or invalid startTime" := by
                  simp [validateIncomingSignal, h1, hT, hs, hS]
                have hst : specStartTimeRejected pd payload := by
                  simp [specStartTimeRejected, hS]
                simp [hfail, hst]
        | null =>
          have hfail : validateIncomingSignal pd payload =
              .fail "Missing title" := by
            simp [validateIncomingSignal, h1, hT]
          have ht3 : specTitleRejected payload := by simp [specTitleRejected, hT]
          simp [hfail, ht3]
        | bool b =>
          have hfail : validateIncomingSignal pd payload =
              .fail "Missing title" := by
            simp [validateIncomingSignal, h1, hT]
          have ht3 : specTitleRejected payload := by simp [specTitleRejected, hT]
          simp [hfail, ht3]
        | num n =>
          have hfail : validateIncomingSignal pd payload =
              .fail "Missing title" := by
            simp [validateIncomingSignal, h1, hT]
          have ht3 : specTitleRejected payload := by simp [specTitleRejected, hT]
          simp [hfail, ht3]
        | arr xs =>
          have hfail : validateIncomingSignal pd payload =
              .fail "Missing title" := by
            simp [validateIncomingSignal, h1, hT]
          have ht3 : specTitleRejected payload := by simp [specTitleRejected, hT]
          simp [hfail, ht3]
        | obj fs =>
          have hfail : validateIncomingSignal pd payload =
              .fail "Missing title" := by
            simp [validateIncomingSignal, h1, hT]
          have ht3 : specTitleRejected payload := by simp [specTitleRejected, hT]
          simp [hfail, ht3]
  · intro p₁ p₂ h1 h2 h3 h4
    simp only [validateIncomingSignal, h1, h2, h3, h4]

/-- Witness for C7: the characterization at an empty object, and outcome
independence from an extra field. -/
theorem c7_validator_characterization_witness :
    ((∃ m, validateIncomingSignal pdTrue (.obj []) = .fail m) ↔
      (specPayloadNotObject (.obj []) ∨ specTitleRejected (.obj []) ∨
        specStartTimeRejected pdTrue (.obj []))) ∧
    validateIncomingSignal pdTrue
      (.obj [("title", .str "T"), ("startTime", .str "S"),
        ("lat", .num 7)]) =
      validateIncomingSignal pdTrue
        (.obj [("title", .str "T"), ("startTime", .str "S")]) :=
  ⟨(c7_validator_characterization pdTrue).1 (.obj []),
   (c7_validator_characterization pdTrue).2
     (.obj [("title", .str "T"), ("startTime", .str "S"), ("lat", .num 7)])
     (.obj [("title", .str "T"), ("startTime", .str "S")])
     rfl rfl rfl rfl⟩

/-- C9.  Writing a sequence of records and, when the write succeeds, reading
the collection back yields the same sequence: same records, same ids, same
order (JSON serialization of the host is the identity on parsed values in
this model). -/
theorem c9_write_read_roundtrip (fs : FileState) (records : List JsValue)
    (ok : Bool) (h : ok = true) :
    (writeJsonArray fs records ok).2 = true ∧
    readJsonArray (writeJsonArray fs records ok).1 = records ∧
    idsOf (readJsonArray (writeJsonArray fs records ok).1) = idsOf records := by
  subst h
  exact ⟨rfl, rfl, rfl⟩

/-- Witness for C9 at a concrete two-record collection. -/
theorem c9_write_read_roundtrip_witness :
    (writeJsonArray .unparsable
      [.obj [("id", .str "a")], .obj [("id", .str "b")]] true).2 = true ∧
    readJsonArray (writeJsonArray .unparsable
      [.obj [("id", .str "a")], .obj [("id", .str "b")]] true).1 =
      [.obj [("id", .str "a")], .obj [("id", .str "b")]] ∧
    idsOf (readJsonArray (writeJsonArray .unparsable
      [.obj [("id", .str "a")], .obj [("id", .str "b")]] true).1) =
      idsOf [.obj [("id", .str "a")], .obj [("id", .str "b")]] :=
  c9_write_read_roundtrip .unparsable
    [.obj [("id", .str "a")], .obj [("id", .str "b")]] true rfl

/-- C10.  When the stored pending collection is unparsable or not an array,
a valid submission whose write succeeds replaces the file with exactly the
one new record: the degraded empty read is the base of the full rewrite, so
every previously stored pending entry is discarded. -/
theorem c10_corrupt_pending_discarded (pd : String → Bool) (st : ServerState)
    (ip : String) (ms : Int) (iso rand : String) (body : JsValue)
    (hfile : st.pendingFile = .unparsable ∨
      ∃ v, st.pendingFile = .content v ∧ ∀ xs, v ≠ .arr xs)
    (hrate : ((hitsGet st.submissionHits ip).filter
      (fun ts => ms - ts ≤ RATE_LIMIT_WINDOW_MS)).length <
        RATE_LIMIT_MAX_SUBMISSIONS)
    (hvalid : validateIncomingSignal pd body = .ok) :
    (postSignal pd st ip ms iso rand body true).1 =
      .createdSignal (assignId body ms rand) ∧
    (postSignal pd st ip ms iso rand body true).2.pendingFile =
      .content (.arr [buildNewSignal body (assignId body ms rand) iso]) := by
  have hread : readJsonArray st.pendingFile = [] := by
    rcases hfile with h | ⟨v, hv, hna⟩
    · rw [h]; rfl
    · rw [hv]
      cases v <;> first | rfl | exact absurd rfl (hna _)
  have henf : enforceSubmissionRateLimit st.submissionHits ip ms =
      (.allowed, hitsSet st.submissionHits ip
        ((hitsGet st.submissionHits ip).filter
          (fun ts => ms - ts ≤ RATE_LIMIT_WINDOW_MS) ++ [ms])) := by
    simp only [enforceSubmissionRateLimit]
    rw [if_neg (Nat.not_le.2 hrate)]
  constructor <;> simp [postSignal, henf, hvalid, hread, writeJsonArray]

/-- Witness for C10: an unparsable pending file with one valid submission. -/
theorem c10_corrupt_pending_discarded_witness :
    (postSignal pdTrue ⟨.unparsable, .absent, []⟩ "ip" 0 "ISO" "r"
      (.obj [("title", .str "T"), ("startTime", .str "S")]) true).1 =
      .createdSignal (assignId
        (.obj [("title", .str "T"), ("startTime", .str "S")]) 0 "r") ∧
    (postSignal pdTrue ⟨.unparsable, .absent, []⟩ "ip" 0 "ISO" "r"
      (.obj [("title", .str "T"), ("startTime", .str "S")]) true).2.pendingFile =
      .content (.arr [buildNewSignal
        (.obj [("title", .str "T"), ("startTime", .str "S")])
        (assignId (.obj [("title", .str "T"), ("startTime", .str "S")]) 0 "r")
        "ISO"]) :=
  c10_corrupt_pending_discarded pdTrue ⟨.unparsable, .absent, []⟩ "ip" 0
    "ISO" "r" (.obj [("title", .str "T"), ("startTime", .str "S")])
    (Or.inl rfl) (by decide) rfl

/-- src/server.js `safeEqual`: compare byte lengths, then the bytes in
constant time.  Strings are modelled as character lists; the length guard
plus the byte comparison decide exactly equality (UTF-8 is injective), which
is the function's value — timing itself is outside the model. -/
def safeEqual (a b : List Char) : Bool :=
  if a.length == b.length then a == b else false

theorem safeEqual_eq_true_iff (a b : List Char) :
    safeEqual a b = true ↔ a = b := by
  unfold safeEqual
  by_cases h : a.length = b.length
  · rw [if_pos (by simpa using h)]
    exact beq_iff_eq
  · rw [if_neg (by simpa using h)]
    constructor
    · intro hx
      exact absurd hx (by simp)
    · intro hc
      exact absurd (congrArg List.length hc) h

/-- `decoded.indexOf(':')` with the two slices around it: split a decoded
credential on its first colon; `none` when no colon occurs. -/
def splitFirstColon : List Char → Option (List Char × List Char)
  | [] => none
  | c :: rest =>
    if c = ':' then some ([], rest)
    else match splitFirstColon rest with
      | none => none
      | some (u, p) => some (c :: u, p)

theorem splitFirstColon_eq_some {d u p : List Char} :
    splitFirstColon d = some (u, p) ↔ d = u ++ ':' :: p ∧ ':' ∉ u := by
  induction d generalizing u p with
  | nil =>
    constructor
    · intro hx
      exact Option.noConfusion hx
    · rintro ⟨heq, -⟩
      refine absurd heq.symm ?_
      intro hh
      exact List.cons_ne_nil ':' p (List.append_eq_nil.1 hh).2
  | cons c rest ih =>
    by_cases hc : c = ':'
    · subst hc
      rw [show splitFirstColon (':' :: rest) = some ([], rest) from by
        simp [splitFirstColon]]
      constructor
      · intro hx
        obtain ⟨rfl, rfl⟩ : [] = u ∧ rest = p := by simpa using hx
        exact ⟨rfl, List.not_mem_nil _⟩
      · rintro ⟨heq, hnm⟩
        cases u with
        | nil =>
          have hp2 : rest = p := by simpa using heq
          rw [hp2]
        | cons a u' =>
          obtain ⟨ha, -⟩ : ':' = a ∧ rest = u' ++ ':' :: p := by simpa using heq
          exact absurd (show (':' : Char) ∈ a :: u' by
            rw [ha]; exact List.mem_cons_self _ _) hnm
    · simp only [splitFirstColon, if_neg hc]
      cases hrec : splitFirstColon rest with
      | none =>
        constructor
        · intro hx
          exact absurd hx (by simp)
        · rintro ⟨heq, hnm⟩
          cases u with
          | nil =>
            simp only [List.nil_append, List.cons.injEq] at heq
            exact absurd heq.1 hc
          | cons a u' =>
            simp only [List.cons_append, List.cons.injEq] at heq
            have hsp : splitFirstColon rest = some (u', p) :=
              ih.2 ⟨heq.2, fun hm => hnm (List.mem_cons_of_mem _ hm)⟩
            rw [hrec] at hsp
            exact absurd hsp (by simp)
      | some pr =>
        obtain ⟨u₀, p₀⟩ := pr
        obtain ⟨hrest, hnm₀⟩ := ih.1 hrec
        constructor
        · intro hx
          simp only [Option.some.injEq, Prod.mk.injEq] at hx
          obtain ⟨rfl, rfl⟩ := hx
          refine ⟨by rw [hrest]; rfl, ?_⟩
          intro hm
          rcases List.mem_cons.1 hm with h' | h'
          · exact hc h'.symm
          · exact hnm₀ h'
        · rintro ⟨heq, hnm⟩
          cases u with
          | nil =>
            simp only [List.nil_append, List.cons.injEq] at heq
            exact absurd heq.1 hc
          | cons a u' =>
            simp only [List.cons_append, List.cons.injEq] at heq
            have hsp : splitFirstColon rest = some (u', p) :=
              ih.2 ⟨heq.2, fun hm => hnm (List.mem_cons_of_mem _ hm)⟩
            rw [hrec] at hsp
            obtain ⟨hu0, hp0⟩ : u₀ = u' ∧ p₀ = p := by simpa using hsp
            rw [hu0, hp0, heq.1]

/-- `header.startsWith('Basic ')` fused with `header.slice(6)`: strip the
six scheme characters, or fail. -/
def stripBasicScheme : List Char → Option (List Char)
  | b :: a :: s :: i :: c :: sp :: rest =>
    if b = 'B' ∧ a = 'a' ∧ s = 's' ∧ i = 'i' ∧ c = 'c' ∧ sp = ' ' then
      some rest
    else none
  | _ => none

theorem stripBasicScheme_eq_some {h r : List Char} :
    stripBasicScheme h = some r ↔
      h = 'B' :: 'a' :: 's' :: 'i' :: 'c' :: ' ' :: r := by
  match h with
  | [] => simp [stripBasicScheme]
  | [c1] => simp [stripBasicScheme]
  | [c1, c2] => simp [stripBasicScheme]
  | [c1, c2, c3] => simp [stripBasicScheme]
  | [c1, c2, c3, c4] => simp [stripBasicScheme]
  | [c1, c2, c3, c4, c5] => simp [stripBasicScheme]
  | c1 :: c2 :: c3 :: c4 :: c5 :: c6 :: rest =>
    by_cases hcond : c1 = 'B' ∧ c2 = 'a' ∧ c3 = 's' ∧ c4 = 'i' ∧ c5 = 'c' ∧
        c6 = ' '
    · obtain ⟨rfl, rfl, rfl, rfl, rfl, rfl⟩ := hcond
      simp [stripBasicScheme]
    · rw [show stripBasicScheme (c1 :: c2 :: c3 :: c4 :: c5 :: c6 :: rest) =
          none from by simp [stripBasicScheme, hcond]]
      constructor
      · intro hx
        exact absurd hx (by simp)
      · intro heq
        simp only [List.cons.injEq] at heq
        exact absurd ⟨heq.1, heq.2.1, heq.2.2.1, heq.2.2.2.1, heq.2.2.2.2.1,
          heq.2.2.2.2.2.1⟩ hcond

/-- src/server.js `parseBasicAuth`; `decode` stands for the host operation
`Buffer.from(s, 'base64').toString('utf8')` together with the surrounding
try/catch (`none` for the caught path). -/
def parseBasicAuth (decode : List Char → Option (List Char))
    (header : List Char) : Option (List Char × List Char) :=
  match stripBasicScheme header with
  | none => none
  | some rest =>
    match decode rest with
    | none => none
    | some decoded => splitFirstColon decoded

/-- Outcome of the `requireAdmin` middleware: pass, or reply with a status,
a WWW-Authenticate challenge and a body. -/
inductive AuthResult where
  | authorized
  | denied (status : Nat) (wwwAuthenticate : String) (body : String)
deriving DecidableEq

/-- src/server.js `requireAdmin`: parse the Authorization header (missing
header treated as empty), compare both credential parts with `safeEqual`,
and on any failure reply 401 with the same challenge and body. -/
def requireAdmin (decode : List Char → Option (List Char))
    (adminUser adminPass : List Char) (authHeader : Option (List Char)) :
    AuthResult :=
  match parseBasicAuth decode (authHeader.getD []) with
  | some (user, pass) =>
    if safeEqual user adminUser && safeEqual pass adminPass then .authorized
    else .denied 401 "Basic realm=\"BX Signal Admin\""
      "Admin authentication required"
  | none => .denied 401 "Basic realm=\"BX Signal Admin\""
      "Admin authentication required"

theorem requireAdmin_eq_or (decode : List Char → Option (List Char))
    (adminUser adminPass : List Char) (h : Option (List Char)) :
    requireAdmin decode adminUser adminPass h = .authorized ∨
    requireAdmin decode adminUser adminPass h =
      .denied 401 "Basic realm=\"BX Signal Admin\""
        "Admin authentication required" := by
  unfold requireAdmin
  cases parseBasicAuth decode (h.getD []) with
  | none => exact Or.inr rfl
  | some pr =>
    obtain ⟨us, ps⟩ := pr
    by_cases hb : (safeEqual us adminUser && safeEqual ps adminPass) = true
    · left; simp [hb]
    · right; simp [hb]

/-- C8.  Authentication succeeds exactly when the header is the scheme token
'Basic ' followed by a base64 payload decoding to identity:secret — split on
the first colon — matching the configured credentials; and every failing
input receives the identical observable rejection: 401 with the same
WWW-Authenticate challenge and the same body. -/
theorem c8_auth_characterization (decode : List Char → Option (List Char))
    (adminUser adminPass : List Char) :
    (∀ h, requireAdmin decode adminUser adminPass h = .authorized ↔
      (∃ b64, h = some ('B' :: 'a' :: 's' :: 'i' :: 'c' :: ' ' :: b64) ∧
        decode b64 = some (adminUser ++ ':' :: adminPass) ∧
        ':' ∉ adminUser)) ∧
    (∀ h, requireAdmin decode adminUser adminPass h ≠ .authorized →
      requireAdmin decode adminUser adminPass h =
        .denied 401 "Basic realm=\"BX Signal Admin\""
          "Admin authentication required") ∧
    (∀ h₁ h₂, requireAdmin decode adminUser adminPass h₁ ≠ .authorized →
      requireAdmin decode adminUser adminPass h₂ ≠ .authorized →
      requireAdmin decode adminUser adminPass h₁ =
        requireAdmin decode adminUser adminPass h₂) := by
  have huni : ∀ h, requireAdmin decode adminUser adminPass h ≠ .authorized →
      requireAdmin decode adminUser adminPass h =
        .denied 401 "Basic realm=\"BX Signal Admin\""
          "Admin authentication required" := by
    intro h hne
    rcases requireAdmin_eq_or decode adminUser adminPass h with hx | hx
    · exact absurd hx hne
    · exact hx
  refine ⟨?_, huni, fun h₁ h₂ hn₁ hn₂ => (huni h₁ hn₁).trans (huni h₂ hn₂).symm⟩
  intro h
  constructor
  · intro ha
    cases h with
    | none =>
      exact absurd ha (by simp [requireAdmin, parseBasicAuth, stripBasicScheme])
    | some header =>
      cases hs : stripBasicScheme header with
      | none =>
        rw [show requireAdmin decode adminUser adminPass (some header) =
            .denied 401 "Basic realm=\"BX Signal Admin\""
              "Admin authentication required" from by
          simp [requireAdmin, parseBasicAuth, hs]] at ha
        exact absurd ha (by simp)
      | some rest =>
        cases hd : decode rest with
        | none =>
          rw [show requireAdmin decode adminUser adminPass (some header) =
              .denied 401 "Basic realm=\"BX Signal Admin\""
                "Admin authentication required" from by
            simp [requireAdmin, parseBasicAuth, hs, hd]] at ha
          exact absurd ha (by simp)
        | some decoded =>
          cases hsp : splitFirstColon decoded with
          | none =>
            rw [show requireAdmin decode adminUser adminPass (some header) =
                .denied 401 "Basic realm=\"BX Signal Admin\""
                  "Admin authentication required" from by
              simp [requireAdmin, parseBasicAuth, hs, hd, hsp]] at ha
            exact absurd ha (by simp)
          | some pr =>
            obtain ⟨us, ps⟩ := pr
            have hreq : requireAdmin decode adminUser adminPass (some header) =
                (if safeEqual us adminUser && safeEqual ps adminPass then
                  AuthResult.authorized
                else .denied 401 "Basic realm=\"BX Signal Admin\""
                  "Admin authentication required") := by
              simp [requireAdmin, parseBasicAuth, hs, hd, hsp]
            rw [hreq] at ha
            by_cases hb : (safeEqual us adminUser &&
                safeEqual ps adminPass) = true
            · obtain ⟨hu, hp⟩ := Bool.and_eq_true_iff.1 hb
              obtain rfl : us = adminUser := (safeEqual_eq_true_iff _ _).1 hu
              obtain rfl : ps = adminPass := (safeEqual_eq_true_iff _ _).1 hp
              obtain ⟨hdec, hnm⟩ := splitFirstColon_eq_some.1 hsp
              refine ⟨rest, ?_, ?_, hnm⟩
              · rw [stripBasicScheme_eq_some.1 hs]
              · rw [hd, hdec]
            · rw [if_neg hb] at ha
              exact absurd ha (by simp)
  · rintro ⟨b64, rfl, hdec, hnm⟩
    have hs : stripBasicScheme
        ('B' :: 'a' :: 's' :: 'i' :: 'c' :: ' ' :: b64) = some b64 :=
      stripBasicScheme_eq_some.2 rfl
    have hsp : splitFirstColon (adminUser ++ ':' :: adminPass) =
        some (adminUser, adminPass) :=
      splitFirstColon_eq_some.2 ⟨rfl, hnm⟩
    have hu : safeEqual adminUser adminUser = true :=
      (safeEqual_eq_true_iff _ _).2 rfl
    have hp : safeEqual adminPass adminPass = true :=
      (safeEqual_eq_true_iff _ _).2 rfl
    simp [requireAdmin, parseBasicAuth, hs, hdec, hsp, hu, hp]

/-- Concrete decoder for the C8 witness: decodes exactly the base64 text of
admin:pw. -/
def decodeSample : List Char → Option (List Char) :=
  fun b64 =>
    if b64 = "YWRtaW46cHc=".toList then some ("admin:pw".toList) else none

/-- Witness for C8: the correct credential authorizes; a malformed payload
and a missing header receive the identical 401 challenge. -/
theorem c8_auth_characterization_witness :
    requireAdmin decodeSample "admin".toList "pw".toList
      (some ("Basic YWRtaW46cHc=".toList)) = .authorized ∧
    requireAdmin decodeSample "admin".toList "pw".toList
      (some ("Basic nope".toList)) =
      .denied 401 "Basic realm=\"BX Signal Admin\""
        "Admin authentication required" ∧
    requireAdmin decodeSample "admin".toList "pw".toList none =
      .denied 401 "Basic realm=\"BX Signal Admin\""
        "Admin authentication required" :=
  ⟨((c8_auth_characterization decodeSample "admin".toList "pw".toList).1
      (some ("Basic YWRtaW46cHc=".toList))).2
      ⟨"YWRtaW46cHc=".toList, by decide, by decide, by decide⟩,
   (c8_auth_characterization decodeSample "admin".toList "pw".toList).2.1
      (some ("Basic nope".toList)) (by decide),
   (c8_auth_characterization decodeSample "admin".toList "pw".toList).2.1
      none (by decide)⟩
